import Mathlib

/-
  Verification development for the CIP core decision layer:
  * the generic weighted-layer detection kernel (`mantic_adapter.py`,
    `NativeBackend.detect`) and its domain wrappers and fallacy classifier;
  * the scaffold selection engine (`scaffold/matcher.py`): tokenizer,
    template cache with inverted token index, layer scorers, ranking gates.

  Numeric model: Python floats are idealised as exact rationals (ℚ), with ℝ
  only where the source computes a square root or an exponential.  Python's
  `round(x, n)` (round half to even) is modelled exactly.  Fallible code is
  modelled with `Except`.  The process-wide mutable caches are modelled by
  explicit state passing (`MatcherState`).
-/

/-! ## Rounding (Python `round`, half to even) -/

/-- Round half to even on ℚ, as Python's `round` on an exact value. -/
def roundHalfEven (q : ℚ) : ℤ :=
  if q - ⌊q⌋ < 1/2 then ⌊q⌋
  else if (1:ℚ)/2 < q - ⌊q⌋ then ⌊q⌋ + 1
  else if ⌊q⌋ % 2 = 0 then ⌊q⌋ else ⌊q⌋ + 1

/-- Python `round(q, p)` on rationals. -/
def roundTo (p : ℕ) (q : ℚ) : ℚ := (roundHalfEven (q * 10 ^ p) : ℚ) / 10 ^ p

open Classical in
/-- Round half to even on ℝ (for values that pass through `sqrt`/`exp`). -/
noncomputable def roundHalfEvenR (x : ℝ) : ℤ :=
  if x - ⌊x⌋ < 1/2 then ⌊x⌋
  else if (1:ℝ)/2 < x - ⌊x⌋ then ⌊x⌋ + 1
  else if ⌊x⌋ % 2 = 0 then ⌊x⌋ else ⌊x⌋ + 1

/-- Python `round(x, p)` on reals. -/
noncomputable def roundToR (p : ℕ) (x : ℝ) : ℝ := (roundHalfEvenR (x * 10 ^ p) : ℝ) / 10 ^ p

/-! ## Detection kernel (`mantic_adapter.NativeBackend`) -/

/-- Unified result from the detection backend (`DetectionResult` dataclass).
The `raw` payload (always empty for the native backend) is omitted. -/
structure DetectionResult where
  m_score : ℝ
  spatial_component : ℚ
  layer_attribution : List (String × ℚ)
  signal : String
  dominant_layer : String
  coherence : ℝ
  tension_pairs : List (String × String × ℚ)
  backend_used : String

/-- Python `max(vals)` for a nonempty list (0 for the unreachable empty case). -/
def maxQ : List ℚ → ℚ
  | [] => 0
  | v :: vs => vs.foldl max v

/-- Python `min(vals)` for a nonempty list (0 for the unreachable empty case). -/
def minQ : List ℚ → ℚ
  | [] => 0
  | v :: vs => vs.foldl min v

/-- Per-layer contributions `w[i] * layer_values[i]` for `i in range(n)`,
`n = len(layer_values) ≤ len(w)`. -/
def contributionsOf (w values : List ℚ) : List ℚ :=
  List.zipWith (fun wi li => wi * li) w values

/-- The spatial component `total = sum(w[i] * layer_values[i])`. -/
def spatialRaw (w values : List ℚ) : ℚ := (contributionsOf w values).sum

/-- The composite score before the 6-decimal rounding:
`M = sum(W_i * L_i) * f_time / sqrt(N)`. -/
noncomputable def mComposite (w values : List ℚ) (f_time : ℚ) : ℝ :=
  ((spatialRaw w values * f_time : ℚ) : ℝ) / Real.sqrt (values.length)

/-- Signal classification of `NativeBackend.detect` (source lines 99-111). -/
def kernelSignal (values : List ℚ) (mode : String) (detection_threshold : ℚ) : String :=
  let spread := maxQ values - minQ values
  if mode = "friction" then
    if detection_threshold < spread then "friction_detected"
    else if detection_threshold < minQ values then "emergence_window"
    else "baseline"
  else if detection_threshold < minQ values then "emergence_window"
  else "baseline"

/-- Tension pairs: every unordered pair `i < j` whose agreement
`max(0, 1 - |L_i - L_j|)` is below the tension threshold, in enumeration
order, with agreement rounded to 3 decimals. -/
def tensionPairs (names : List String) (values : List ℚ) (tension_threshold : ℚ) :
    List (String × String × ℚ) :=
  (List.range values.length).flatMap (fun i =>
    ((List.range values.length).filter (fun j => i < j)).filterMap (fun j =>
      let agreement := max 0 (1 - |values.getD i 0 - values.getD j 0|)
      if agreement < tension_threshold then
        some (names.getD i "", names.getD j "", roundTo 3 agreement)
      else none))

/-- The `DetectionResult` assembled by `NativeBackend.detect` once all
validation has passed (source lines 76-135). -/
noncomputable def mkDetection (names : List String) (values w : List ℚ) (mode : String)
    (f_time detection_threshold tension_threshold coherence_divisor : ℚ) : DetectionResult :=
  let n := values.length
  let contributions := contributionsOf w values
  let total := spatialRaw w values
  let attr_total : ℚ := if total = 0 then 1 else total
  let mean : ℚ := values.sum / n
  let variance : ℚ := (values.map (fun v => (v - mean) ^ 2)).sum / n
  { m_score := roundToR 6 (mComposite w values f_time)
    spatial_component := roundTo 6 total
    layer_attribution :=
      List.zipWith (fun nm c => (nm, roundTo 1 (c / attr_total * 100))) names contributions
    signal := kernelSignal values mode detection_threshold
    dominant_layer := names.getD (values.indexOf (maxQ values)) ""
    coherence := roundToR 6 (max 0 (1 - Real.sqrt (variance : ℝ) / (coherence_divisor : ℝ)))
    tension_pairs := tensionPairs names values tension_threshold
    backend_used := "cip_native" }

namespace NativeBackend

/-- `NativeBackend.detect`.  Failure modes of the Python code are modelled by
`Except.error`: the three explicit validations, the `IndexError` raised when a
supplied weights list is shorter than the layer count (`w[i]` at line 79), and
the `ZeroDivisionError` raised when `coherence_divisor` is zero (line 97). -/
noncomputable def detect (layer_names : List String) (layer_values : List ℚ)
    (weights : Option (List ℚ)) (mode : String)
    (f_time detection_threshold tension_threshold coherence_divisor : ℚ) :
    Except String DetectionResult :=
  let n := layer_names.length
  if n ≠ layer_values.length then
    .error "layer_names and layer_values must have the same length"
  else if n < 2 then .error "at least 2 layers required"
  else if ¬(mode = "friction" ∨ mode = "emergence") then
    .error "mode must be friction or emergence"
  else
    let w := weights.getD (List.replicate n (1 / (n : ℚ)))
    if w.length < n then .error "list index out of range"
    else if coherence_divisor = 0 then .error "float division by zero"
    else .ok (mkDetection layer_names layer_values w mode
        f_time detection_threshold tension_threshold coherence_divisor)

end NativeBackend

/-! ## Domain wrappers (`_clamp`, `detect_safety_friction`,
`detect_policy_conflict`, `detect_argument_friction`) -/

/-- `_clamp(v) = max(0.0, min(1.0, v))`. -/
def _clamp (v : ℚ) : ℚ := max 0 (min 1 v)

/-- Layer names used by `detect_safety_friction`. -/
def safetyLayers : List String :=
  ["escalation_density", "prohibited_density", "topic_sensitivity", "response_length_risk"]

/-- `detect_safety_friction` (native backend): clamp, then the kernel with
fixed names, weights `[0.30, 0.35, 0.20, 0.15]` and friction mode. -/
noncomputable def detect_safety_friction (layer_values : List ℚ) (detection_threshold : ℚ) :
    Except String DetectionResult :=
  NativeBackend.detect safetyLayers (layer_values.map _clamp)
    (some [3/10, 35/100, 2/10, 15/100]) "friction" 1 detection_threshold (1/2) (1/2)

/-- Layer names used by `detect_policy_conflict`. -/
def policyLayers : List String :=
  ["creativity", "constraint_strictness", "safety_priority", "verbosity"]

/-- `detect_policy_conflict` (native backend): clamp, then the kernel with
fixed names, weights `[0.30, 0.25, 0.25, 0.20]` and friction mode. -/
noncomputable def detect_policy_conflict (layer_values : List ℚ) (detection_threshold : ℚ) :
    Except String DetectionResult :=
  NativeBackend.detect policyLayers (layer_values.map _clamp)
    (some [3/10, 25/100, 25/100, 2/10]) "friction" 1 detection_threshold (1/2) (1/2)

/-- `_ARGUMENT_LAYERS`. -/
def argumentLayers : List String :=
  ["premise_strength", "inferential_link", "structural_validity", "scope_consistency"]

/-- `_ARGUMENT_WEIGHTS`. -/
def argumentWeights : List ℚ := [25/100, 3/10, 25/100, 2/10]

/-- `detect_argument_friction` (native backend): exactly 4 values required,
then clamp and call the kernel with the argument layers and weights. -/
noncomputable def detect_argument_friction (layer_values : List ℚ) (detection_threshold : ℚ) :
    Except String DetectionResult :=
  if layer_values.length ≠ 4 then
    .error "exactly 4 layer values required for argument analysis"
  else
    NativeBackend.detect argumentLayers (layer_values.map _clamp)
      (some argumentWeights) "friction" 1 detection_threshold (1/2) (1/2)

/-! ## Fallacy classification (`classify_fallacy`, `_FALLACY_SIGNATURES`) -/

/-- `FallacyResult` dataclass. -/
structure FallacyResult where
  name : String
  display_name : String
  explanation : String
  is_valid : Bool
  confidence : ℝ
  matching_layers : List String

/-- The four argument layer values, keyed as in `_ARGUMENT_LAYERS`
(a four-value layer map). -/
structure ArgLayerValues where
  premise_strength : ℚ
  inferential_link : ℚ
  structural_validity : ℚ
  scope_consistency : ℚ

/-- One entry of `_FALLACY_SIGNATURES`. -/
structure FallacySignature where
  name : String
  display_name : String
  explanation : String
  predicate : ArgLayerValues → Bool

/-- `_FALLACY_SIGNATURES`: ordered most-specific first (4-constraint, then 3,
then 2); explanations elided to short tags. -/
def fallacySignatures : List FallacySignature :=
  [ { name := "straw_man", display_name := "Straw Man", explanation := "straw man",
      predicate := fun v => decide (4/10 < v.premise_strength ∧ 4/10 < v.inferential_link ∧
        4/10 < v.structural_validity ∧ v.scope_consistency < 3/10) },
    { name := "false_dilemma", display_name := "False Dilemma", explanation := "false dilemma",
      predicate := fun v => decide (1/2 < v.premise_strength ∧ 4/10 < v.inferential_link ∧
        v.structural_validity < 4/10 ∧ v.scope_consistency < 3/10) },
    { name := "affirming_the_consequent", display_name := "Affirming the Consequent",
      explanation := "affirming the consequent",
      predicate := fun v => decide (6/10 < v.premise_strength ∧ v.inferential_link < 3/10 ∧
        v.structural_validity < 35/100) },
    { name := "circular_reasoning", display_name := "Circular Reasoning",
      explanation := "circular reasoning",
      predicate := fun v => decide (6/10 < v.inferential_link ∧ v.structural_validity < 3/10 ∧
        v.premise_strength < 1/2) },
    { name := "appeal_to_authority", display_name := "Appeal to Authority",
      explanation := "appeal to authority",
      predicate := fun v => decide (v.premise_strength < 3/10 ∧ 1/2 < v.inferential_link ∧
        1/2 < v.structural_validity) },
    { name := "hasty_generalization", display_name := "Hasty Generalization",
      explanation := "hasty generalization",
      predicate := fun v => decide (4/10 < v.premise_strength ∧ v.premise_strength < 7/10 ∧
        v.scope_consistency < 3/10) },
    { name := "non_sequitur", display_name := "Non Sequitur", explanation := "non sequitur",
      predicate := fun v => decide (4/10 < v.premise_strength ∧ v.inferential_link < 2/10 ∧
        4/10 < v.structural_validity) } ]

/-- `classify_fallacy(result, layer_values)`.  The for-loop over
`_FALLACY_SIGNATURES` returning the first predicate match is `List.find?`;
`matching_layers` is the full layer list since the four-value map carries
exactly the `_ARGUMENT_LAYERS` keys. -/
noncomputable def classify_fallacy (result : DetectionResult) (v : ArgLayerValues) :
    FallacyResult :=
  if result.signal ≠ "friction_detected" then
    { name := "valid_argument", display_name := "Valid Argument",
      explanation := "no structural friction detected", is_valid := true,
      confidence := max 0 (min 1 result.coherence), matching_layers := [] }
  else
    match fallacySignatures.find? (fun sig => sig.predicate v) with
    | some sig =>
        { name := sig.name, display_name := sig.display_name,
          explanation := sig.explanation, is_valid := false,
          confidence := max 0 (min 1 (1 - result.coherence)),
          matching_layers := argumentLayers }
    | none =>
        { name := "unclassified_friction", display_name := "Unclassified Friction",
          explanation := "friction but no known fallacy pattern", is_valid := false,
          confidence := max 0 (min 1 (1 - result.coherence)),
          matching_layers := argumentLayers }

/-! ## Saturation (`matcher._saturate`) -/

/-- `_saturate(raw, k)`: diminishing returns `1 - e^(-k * raw)` on `(0, ∞)`,
`0` at or below `0`. -/
noncomputable def _saturate (raw k : ℝ) : ℝ :=
  if raw ≤ 0 then 0 else 1 - Real.exp (-k * raw)

/-! ## Tokenizer and phrase normalisation (`matcher.py` lines 153-176)

Python `str` operations are modelled at character level (ASCII semantics,
which is what the tokenizer regex `[a-z0-9']+` targets). -/

/-- Characters matched by the tokenizer regex `[a-z0-9']+` (after lowering). -/
def isTokenChar (c : Char) : Bool :=
  ('a' ≤ c && c ≤ 'z') || ('0' ≤ c && c ≤ '9') || c == '\''

/-- `text.lower()` as a character list. -/
def lowerChars (s : String) : List Char := s.toList.map Char.toLower

/-- `text.lower()`. -/
def lowerStr (s : String) : String := String.mk (lowerChars s)

/-- Maximal runs of characters satisfying `p` (the accumulator holds the
current run reversed). -/
def runsBy (p : Char → Bool) : List Char → List Char → List (List Char)
  | acc, [] => if acc.isEmpty then [] else [acc.reverse]
  | acc, c :: rest =>
    if p c then runsBy p (c :: acc) rest
    else if acc.isEmpty then runsBy p [] rest
    else acc.reverse :: runsBy p [] rest

/-- `_tokenize(text) = set(re.findall(r"[a-z0-9']+", text.lower()))`. -/
def _tokenize (text : String) : Finset String :=
  ((runsBy isTokenChar [] (lowerChars text)).map String.mk).toFinset

/-- `_normalize_phrase(phrase) = " ".join(phrase.lower().split())`. -/
def _normalize_phrase (phrase : String) : String :=
  String.intercalate " "
    ((runsBy (fun c => !c.isWhitespace) [] (lowerChars phrase)).map String.mk)

/-- Python `kw.strip()` truthiness: some character is not whitespace. -/
def hasNonWS (s : String) : Bool := s.toList.any (fun c => !c.isWhitespace)

/-- Code-point lexicographic order on character lists (Python `str` order). -/
def charListLe : List Char → List Char → Bool
  | [], _ => true
  | _ :: _, [] => false
  | a :: as, b :: bs => if a < b then true else if b < a then false else charListLe as bs

/-- Python `str` comparison `a <= b`. -/
def strLe (a b : String) : Bool := charListLe a.toList b.toList

/-- Insert into an ascending list (helper for `sortStrings`). -/
def insertSorted (x : String) : List String → List String
  | [] => [x]
  | y :: ys => if strLe x y then x :: y :: ys else y :: insertSorted x ys

/-- Python `sorted` on strings (any correct sort: the ascending list of a
string multiset is unique). -/
def sortStrings : List String → List String
  | [] => []
  | x :: xs => insertSorted x (sortStrings xs)

/-! ## Word-boundary phrase matching (`_compile_phrase_pattern` + `search`)

A compiled pattern `\b<escaped phrase>\b` is represented by the lowered
phrase string it was compiled from; `phraseSearch text pat` decides whether
`re.search` finds a match in `text`.  `\b` matches where exactly one of the
two adjacent characters is a word character (`[A-Za-z0-9_]`, with
out-of-bounds counting as non-word). -/

/-- Regex word character `\w` (ASCII). -/
def isWordChar (c : Char) : Bool := c.isAlphanum || c == '_'

/-- Word-ness of an optional character (none = outside the text). -/
def wordAt : Option Char → Bool
  | none => false
  | some c => isWordChar c

/-- Scan for a match of the (nonempty) pattern with `\b` at both ends;
`prev` is the character preceding the current position. -/
def searchAux (pat : List Char) (p0 pLast : Char) : Option Char → List Char → Bool
  | _, [] => false
  | prev, c :: rest =>
    (pat.isPrefixOf (c :: rest) && (wordAt prev != isWordChar p0)
      && (isWordChar pLast != wordAt ((c :: rest).drop pat.length).head?))
    || searchAux pat p0 pLast (some c) rest

/-- `bool(re.search(rf"\b{re.escape(pat)}\b", text))` for the stored pattern
`pat` (always nonempty: the source compiles patterns only for phrases whose
lowering is nonempty). -/
def phraseSearch (text : String) (pat : String) : Bool :=
  match pat.toList with
  | [] => false
  | p :: ps => searchAux (p :: ps) p ((p :: ps).getLastD p) none text.toList

/-! ## Scaffold model and matcher cache (`matcher.py` lines 139-254)

Only the fields the matcher reads are modelled from the `Scaffold` pydantic
record. -/

/-- `ScaffoldApplicability`: the matchable content of a scaffold. -/
structure ScaffoldApplicability where
  tools : List String
  keywords : List String
  intent_signals : List String
deriving DecidableEq

/-- A scaffold, restricted to the fields the matcher reads. -/
structure Scaffold where
  id : String
  domain : String
  description : String
  applicability : ScaffoldApplicability
deriving DecidableEq

/-- `_ScaffoldCache`: per-scaffold derived entry.  The pattern dicts map a raw
phrase to the lowered phrase its compiled pattern matches. -/
structure ScaffoldCache where
  signal_tokens : String → Option (Finset String)
  signal_patterns : String → Option String
  keyword_patterns : String → Option String
  match_tokens : Finset String
  has_tokenless_keyword : Bool
  signature : List String × List String

/-- The module-level mutable caches `_cache` and `_token_to_scaffold_ids`,
as explicit state.  A token absent from the inverted index is identified
with a token mapped to the empty id set (the source pops empty entries). -/
structure MatcherState where
  cache : String → Option ScaffoldCache
  token_to_scaffold_ids : String → Finset String

/-- Both caches empty. -/
def initState : MatcherState := ⟨fun _ => none, fun _ => ∅⟩

/-- `_scaffold_signature`: sorted nonempty normalised intent signals and
keywords. -/
def _scaffold_signature (s : Scaffold) : List String × List String :=
  (sortStrings ((s.applicability.intent_signals.map _normalize_phrase).filter (fun x => x != "")),
   sortStrings ((s.applicability.keywords.map _normalize_phrase).filter (fun x => x != "")))

/-- `_evict_scaffold_tokens`: remove the id from the index rows of the given
tokens. -/
def _evict_scaffold_tokens (scaffold_id : String) (tokens : Finset String)
    (st : MatcherState) : MatcherState :=
  { st with token_to_scaffold_ids := fun t =>
      if t ∈ tokens then (st.token_to_scaffold_ids t).erase scaffold_id
      else st.token_to_scaffold_ids t }

/-- The cache entry `_ensure_cached` builds for a scaffold (lines 197-214):
a fold over intent signals, then keywords. -/
def buildEntry (s : Scaffold) : ScaffoldCache :=
  let e0 : ScaffoldCache :=
    { signal_tokens := fun _ => none, signal_patterns := fun _ => none,
      keyword_patterns := fun _ => none, match_tokens := ∅,
      has_tokenless_keyword := false, signature := _scaffold_signature s }
  let e1 := s.applicability.intent_signals.foldl (fun e signal =>
    let stoks := _tokenize signal
    { e with
      signal_tokens := Function.update e.signal_tokens signal (some stoks)
      match_tokens := e.match_tokens ∪ stoks
      signal_patterns :=
        if lowerStr signal != "" then
          Function.update e.signal_patterns signal (some (lowerStr signal))
        else e.signal_patterns }) e0
  s.applicability.keywords.foldl (fun e kw =>
    let ktoks := _tokenize kw
    let e' :=
      if ktoks ≠ ∅ then { e with match_tokens := e.match_tokens ∪ ktoks }
      else if hasNonWS kw then { e with has_tokenless_keyword := true }
      else e
    if lowerStr kw != "" then
      { e' with keyword_patterns := Function.update e'.keyword_patterns kw (some (lowerStr kw)) }
    else e') e1

/-- Store a freshly built entry and add its id under each of its match
tokens (lines 216-221). -/
def insertEntry (s : Scaffold) (st : MatcherState) : ScaffoldCache × MatcherState :=
  let entry := buildEntry s
  (entry,
    { cache := Function.update st.cache s.id (some entry)
      token_to_scaffold_ids := fun t =>
        if t ∈ entry.match_tokens then insert s.id (st.token_to_scaffold_ids t)
        else st.token_to_scaffold_ids t })

/-- `_ensure_cached`: reuse a cached entry whose signature matches the
scaffold's live signature; otherwise purge the stale entry's index
memberships and rebuild. -/
def _ensure_cached (s : Scaffold) (st : MatcherState) : ScaffoldCache × MatcherState :=
  match st.cache s.id with
  | some c =>
    if c.signature = _scaffold_signature s then (c, st)
    else insertEntry s (_evict_scaffold_tokens s.id c.match_tokens st)
  | none => insertEntry s st

/-- `prepare_matcher_cache`: eagerly warm every entry (also the per-scaffold
`_ensure_cached` loop at the top of `_candidate_scaffolds`). -/
def prepare_matcher_cache (ss : List Scaffold) (st : MatcherState) : MatcherState :=
  ss.foldl (fun acc s => (_ensure_cached s acc).2) st

/-- `clear_matcher_cache`: drop both structures. -/
def clear_matcher_cache (_ : MatcherState) : MatcherState := initState

/-- `_candidate_scaffolds`: prune to scaffolds indexed under some input
token, plus (when the indexed union is nonempty) the scaffolds flagged
`has_tokenless_keyword`. -/
def _candidate_scaffolds (scaffolds : List Scaffold) (user_tokens : Finset String)
    (st : MatcherState) : List Scaffold × MatcherState :=
  if scaffolds.isEmpty || user_tokens = ∅ then (scaffolds, st)
  else
    let st' := prepare_matcher_cache scaffolds st
    let candidate_ids := user_tokens.biUnion st'.token_to_scaffold_ids
    if candidate_ids = ∅ then ([], st')
    else
      (scaffolds.filter (fun s =>
        decide (s.id ∈ candidate_ids) ||
          ((st'.cache s.id).elim false (fun c => c.has_tokenless_keyword))), st')

/-! ## Cache operations for the index invariant -/

/-- The cache operations a caller can perform (scoring performs `ensure`
internally). -/
inductive CacheOp where
  | ensure : Scaffold → CacheOp
  | prepareAll : List Scaffold → CacheOp
  | clear : CacheOp

/-- Apply one cache operation. -/
def applyOp (st : MatcherState) (op : CacheOp) : MatcherState :=
  match op with
  | .ensure s => (_ensure_cached s st).2
  | .prepareAll ss => prepare_matcher_cache ss st
  | .clear => clear_matcher_cache st

/-- Run a sequence of cache operations from the empty state. -/
def runOps (ops : List CacheOp) : MatcherState := ops.foldl applyOp initState

/-- The inverted-index exactness invariant: a token's index row is exactly
the set of ids whose current cache entry's matchable-token set contains the
token. -/
def IndexExact (st : MatcherState) : Prop :=
  ∀ (token id : String),
    id ∈ st.token_to_scaffold_ids token ↔
      ∃ e, st.cache id = some e ∧ token ∈ e.match_tokens

/-! ## Selection parameters (`SelectionParams`)

Dict-valued fields are modelled as lookup functions; the `context` map is
projected to the two keys the meta layer reads (`"domain"`,
`"prior_scaffold_id"`).  The source's `macro` identifiers are rendered as
`descr` (description-overlap layer) here; string keys keep the source
spelling. -/

/-- `_DEFAULT_WEIGHTS = {"micro": 0.20, "meso": 0.40, "macro": 0.30, "meta": 0.10}`. -/
def _DEFAULT_WEIGHTS : String → Option ℚ := fun l =>
  if l = "micro" then some (2/10)
  else if l = "meso" then some (4/10)
  else if l = "macro" then some (3/10)
  else if l = "meta" then some (1/10)
  else none

/-- `_DEFAULT_SATURATION = {"micro": 0.7, "meso": 1.0}`. -/
def _DEFAULT_SATURATION : String → Option ℚ := fun l =>
  if l = "micro" then some (7/10)
  else if l = "meso" then some 1
  else none

/-- `SelectionParams`: every tunable knob of the layered scorer; `none`
falls back to a default.  `descr_min_overlap` is the source's
`macro_min_overlap`. -/
structure SelectionParams where
  layer_weights : Option (String → Option ℚ)
  saturation : Option (String → Option ℚ)
  min_signal_coverage : Option ℚ
  exact_signal_bonus : Option ℚ
  reinforcement : Option ℚ
  layer_activation : Option ℚ
  descr_min_overlap : Option ℤ
  min_confidence : Option ℚ
  ambiguity_margin : Option ℚ
  context_domain : Option String
  context_prior_scaffold_id : Option String
  selection_bias : Option (String → Option ℚ)

/-- All-default parameters (`SelectionParams()`). -/
def defaultParams : SelectionParams :=
  ⟨none, none, none, none, none, none, none, none, none, none, none, none⟩

/-- `params.weights()`. -/
def SelectionParams.weights (p : SelectionParams) : String → Option ℚ :=
  p.layer_weights.getD _DEFAULT_WEIGHTS

/-- `params.sat(layer)`: the saturation rate, 1.0 when unlisted. -/
def SelectionParams.sat (p : SelectionParams) (layer : String) : ℚ :=
  ((p.saturation.getD _DEFAULT_SATURATION) layer).getD 1

/-- `params.signal_coverage()` (default 0.5). -/
def SelectionParams.signal_coverage (p : SelectionParams) : ℚ :=
  p.min_signal_coverage.getD (1/2)

/-- `params.signal_bonus()` (default 0.3). -/
def SelectionParams.signal_bonus (p : SelectionParams) : ℚ :=
  p.exact_signal_bonus.getD (3/10)

/-- `params.reinforce()` (default 0.15). -/
def SelectionParams.reinforce (p : SelectionParams) : ℚ :=
  p.reinforcement.getD (15/100)

/-- `params.activation()` (default 0.05). -/
def SelectionParams.activation (p : SelectionParams) : ℚ :=
  p.layer_activation.getD (5/100)

/-- The source's `params.macro_overlap()` (default 2). -/
def SelectionParams.descr_overlap (p : SelectionParams) : ℤ :=
  p.descr_min_overlap.getD 2

/-- `params.confidence()` (default 0.0). -/
def SelectionParams.confidence (p : SelectionParams) : ℚ :=
  p.min_confidence.getD 0

/-- `params.ambiguity()` (default 0.0). -/
def SelectionParams.ambiguity (p : SelectionParams) : ℚ :=
  p.ambiguity_margin.getD 0

/-! ## Layer scorers and per-scaffold scoring (`matcher.py` lines 261-453) -/

/-- `LayerBreakdown`: per-layer scores.  `descr` is the source's `macro`
(description-overlap) layer. -/
structure LayerBreakdown where
  micro : ℝ
  meso : ℝ
  descr : ℝ
  meta : ℝ

/-- `LayerBreakdown.active_count`: how many layers exceed the activation
threshold. -/
noncomputable def LayerBreakdown.active_count (lb : LayerBreakdown) (threshold : ℝ) : ℕ :=
  ([lb.micro, lb.meso, lb.descr, lb.meta].filter (fun v => decide (threshold < v))).length

/-- `ScaffoldScore` dataclass. -/
structure ScaffoldScore where
  scaffold_id : String
  total_score : ℝ
  layers : LayerBreakdown
  interaction_multiplier : ℝ
  bias_multiplier : ℚ
  pre_bias_score : ℝ
  intent_signal_scores : List (String × ℚ)
  keyword_scores : List (String × ℚ)

/-- `ScaffoldScore(scaffold_id=..., total_score=0.0)` with dataclass
defaults for the remaining fields. -/
def zeroScore (id : String) : ScaffoldScore :=
  { scaffold_id := id, total_score := 0, layers := ⟨0, 0, 0, 0⟩,
    interaction_multiplier := 1, bias_multiplier := 1, pre_bias_score := 0,
    intent_signal_scores := [], keyword_scores := [] }

/-- The keyword-hit count and detail dict of `_score_micro` (the loop before
saturation). -/
def microHits (s : Scaffold) (user_lower : String) (cache : ScaffoldCache) :
    ℕ × List (String × ℚ) :=
  s.applicability.keywords.foldl (fun (acc : ℕ × List (String × ℚ)) kw =>
    match cache.keyword_patterns kw with
    | some pat => if phraseSearch user_lower pat then (acc.1 + 1, acc.2 ++ [(kw, 1)]) else acc
    | none => acc) (0, [])

/-- `_score_micro`: count keyword pattern hits, saturate. -/
noncomputable def _score_micro (s : Scaffold) (user_lower : String) (cache : ScaffoldCache)
    (params : SelectionParams) : ℝ × List (String × ℚ) :=
  let step := microHits s user_lower cache
  (_saturate (step.1 : ℝ) ((params.sat "micro" : ℚ) : ℝ), step.2)

/-- The summed contributions and detail dict of `_score_meso`: per intent
signal, token coverage at or above the minimum contributes coverage plus
the exact-phrase bonus when the compiled pattern also hits. -/
def mesoRaw (s : Scaffold) (user_tokens : Finset String) (user_lower : String)
    (cache : ScaffoldCache) (params : SelectionParams) : ℚ × List (String × ℚ) :=
  let min_cov := params.signal_coverage
  let bonus := params.signal_bonus
  s.applicability.intent_signals.foldl (fun (acc : ℚ × List (String × ℚ)) signal =>
    let stoks := (cache.signal_tokens signal).getD ∅
    if stoks = ∅ then acc
    else
      let coverage : ℚ := ((stoks.filter (fun t => t ∈ user_tokens)).card : ℚ) / stoks.card
      if coverage < min_cov then acc
      else
        let contribution := coverage +
          (match cache.signal_patterns signal with
           | some pat => if phraseSearch user_lower pat then bonus else 0
           | none => 0)
        (acc.1 + contribution, acc.2 ++ [(signal, contribution)])) (0, [])

/-- `_score_meso`: saturate the summed contributions. -/
noncomputable def _score_meso (s : Scaffold) (user_tokens : Finset String) (user_lower : String)
    (cache : ScaffoldCache) (params : SelectionParams) : ℝ × List (String × ℚ) :=
  let step := mesoRaw s user_tokens user_lower cache params
  (_saturate (step.1 : ℝ) ((params.sat "meso" : ℚ) : ℝ), step.2)

/-- The source's `_score_macro`: description token overlap; below the
minimum overlap the layer is 0, otherwise `min(overlap / len(desc), 1)`
(deliberately unsaturated). -/
def _score_descr (s : Scaffold) (user_tokens : Finset String) (params : SelectionParams) : ℚ :=
  let desc_tokens := _tokenize s.description
  if desc_tokens = ∅ then 0
  else
    let overlap := (user_tokens ∩ desc_tokens).card
    if (overlap : ℤ) < params.descr_overlap then 0
    else min ((overlap : ℚ) / desc_tokens.card) 1

/-- `_score_meta`: 0.5 on a domain hint match (a falsy hint never matches),
`max(score, 0.3)` when the prior-scaffold hint equals this id, capped at 1. -/
def _score_meta (s : Scaffold) (params : SelectionParams) : ℚ :=
  let score1 : ℚ :=
    match params.context_domain with
    | some d => if d ≠ "" ∧ s.domain = d then 1/2 else 0
    | none => 0
  let score2 : ℚ :=
    match params.context_prior_scaffold_id with
    | some p => if p = s.id then max score1 (3/10) else score1
    | none => score1
  min score2 1

/-- `_score_one`: the four layers, weighted sum, reinforcement multiplier
from the active-layer count, optional per-scaffold bias. -/
noncomputable def _score_one (s : Scaffold) (user_tokens : Finset String) (user_lower : String)
    (cache : ScaffoldCache) (params : SelectionParams) : ScaffoldScore :=
  let micro := _score_micro s user_lower cache params
  let meso := _score_meso s user_tokens user_lower cache params
  let descr := _score_descr s user_tokens params
  let meta := _score_meta s params
  let layers : LayerBreakdown := ⟨micro.1, meso.1, (descr : ℝ), (meta : ℝ)⟩
  let w := params.weights
  let weighted : ℝ :=
    (((w "micro").getD 0 : ℚ) : ℝ) * layers.micro + (((w "meso").getD 0 : ℚ) : ℝ) * layers.meso
    + (((w "macro").getD 0 : ℚ) : ℝ) * layers.descr + (((w "meta").getD 0 : ℚ) : ℝ) * layers.meta
  let active := layers.active_count ((params.activation : ℚ) : ℝ)
  let interaction : ℝ := 1 + ((params.reinforce : ℚ) : ℝ) * ((active - 1 : ℕ) : ℝ)
  let pre_bias := weighted * interaction
  let multiplier : ℚ :=
    match params.selection_bias with
    | some b => (b s.id).getD 1
    | none => 1
  { scaffold_id := s.id, total_score := pre_bias * (multiplier : ℝ), layers := layers,
    interaction_multiplier := interaction, bias_multiplier := multiplier,
    pre_bias_score := pre_bias, intent_signal_scores := meso.2, keyword_scores := micro.2 }

/-! ## Orchestration (`_score_scaffolds_layered`) -/

/-- The tuple `(best_scaffold, scores, confidence, ambiguous)` returned by
`_score_scaffolds_layered`, plus the threaded cache state. -/
structure LayeredOutcome where
  best : Option Scaffold
  scores : List ScaffoldScore
  confidence : ℝ
  ambiguous : Bool
  state : MatcherState

/-- Python `max((s.total_score for s in scores), default=0.0)`. -/
def maxScoreDefault0 (l : List ScaffoldScore) : ℝ :=
  match l.map (fun sc => sc.total_score) with
  | [] => 0
  | v :: vs => vs.foldl max v

/-- Descending order on total score (`scores.sort(key=..., reverse=True)`). -/
def scoreDesc (a b : ScaffoldScore) : Prop := b.total_score ≤ a.total_score

noncomputable instance : DecidableRel scoreDesc := fun a b => Real.decidableLE _ _

instance : IsTotal ScaffoldScore scoreDesc := ⟨fun a b => le_total b.total_score a.total_score⟩

instance : IsTrans ScaffoldScore scoreDesc :=
  ⟨fun _ _ _ h1 h2 => le_trans h2 h1⟩

/-- The scoring half of `_score_scaffolds_layered`: prune to candidates,
score them (pass 1), and when a positive confidence floor is unmet run the
description-overlap fallback pass over non-candidates (pass 2); everything
else gets the pruned-away zero score. -/
noncomputable def _layered_scores (scaffolds : List Scaffold) (user_input : String)
    (params : SelectionParams) (st : MatcherState) : List ScaffoldScore × MatcherState :=
  let user_lower := lowerStr user_input
  let user_tokens := _tokenize user_input
  let pruned := _candidate_scaffolds scaffolds user_tokens st
  let candidate_ids : Finset String := (pruned.1.map (fun s => s.id)).toFinset
  let pass1 := scaffolds.foldl
    (fun (acc : List ScaffoldScore × List Scaffold × MatcherState) s =>
      if s.id ∈ candidate_ids then
        let ec := _ensure_cached s acc.2.2
        (acc.1 ++ [_score_one s user_tokens user_lower ec.1 params], acc.2.1, ec.2)
      else (acc.1, acc.2.1 ++ [s], acc.2.2)) ([], [], pruned.2)
  let ct := params.confidence
  if 0 < ct ∧ maxScoreDefault0 pass1.1 < (ct : ℝ) ∧ ¬pass1.2.1.isEmpty then
    pass1.2.1.foldl (fun (acc : List ScaffoldScore × MatcherState) s =>
      if (params.activation : ℚ) < _score_descr s user_tokens params then
        let ec := _ensure_cached s acc.2
        (acc.1 ++ [_score_one s user_tokens user_lower ec.1 params], ec.2)
      else (acc.1 ++ [zeroScore s.id], acc.2)) (pass1.1, pass1.2.2)
  else (pass1.1 ++ pass1.2.1.map (fun s => zeroScore s.id), pass1.2.2)

/-- The tail of `_score_scaffolds_layered`: sort the scores descending
(Python's stable sort; `List.insertionSort` with `scoreDesc` yields exactly
that order) and apply the no-match, confidence and ambiguity gates. -/
noncomputable def _select_gates (scaffolds : List Scaffold) (params : SelectionParams)
    (sl : List ScaffoldScore × MatcherState) : LayeredOutcome :=
  let ct := params.confidence
  let sorted := List.insertionSort scoreDesc sl.1
  match sorted with
  | [] => ⟨none, [], 0, false, sl.2⟩
  | best :: rest =>
    if best.total_score ≤ 0 then ⟨none, best :: rest, 0, false, sl.2⟩
    else
      let confidence := best.total_score
      if 0 < ct ∧ confidence < (ct : ℝ) then ⟨none, best :: rest, confidence, false, sl.2⟩
      else
        let ambiguous : Bool :=
          match rest with
          | [] => false
          | second :: _ =>
            decide (0 < params.ambiguity) && decide ((0:ℝ) < second.total_score)
              && decide (confidence - second.total_score < ((params.ambiguity : ℚ) : ℝ))
        ⟨scaffolds.find? (fun sc => sc.id == best.scaffold_id), best :: rest,
          confidence, ambiguous, sl.2⟩

/-- `_score_scaffolds_layered`: degenerate-input early return, then score
(lazy warm + pruning + the two passes) and gate. -/
noncomputable def _score_scaffolds_layered (scaffolds : List Scaffold) (user_input : String)
    (params : SelectionParams) (st : MatcherState) : LayeredOutcome :=
  if scaffolds.isEmpty || user_input = "" then ⟨none, [], 0, false, st⟩
  else _select_gates scaffolds params (_layered_scores scaffolds user_input params st)


/-! ## Derived observers and example data used by the theorems -/

/-- The top (first) total score of a sorted score list, 0 when empty. -/
def topTotal : List ScaffoldScore → ℝ
  | [] => 0
  | sc :: _ => sc.total_score

/-- The scaffold id of the top-scoring entry, `""` when empty. -/
def topId : List ScaffoldScore → String
  | [] => ""
  | sc :: _ => sc.scaffold_id

/-- Example scaffold for the C6 witness: one tokenizable keyword. -/
def exScaffoldC6 : Scaffold :=
  ⟨"s1", "", "", ⟨[], ["alpha"], []⟩⟩

/-- Example scaffold for the C1 counterexample: its only keyword `"!!!"` is
non-blank but normalises to zero tokens, so the entry is flagged
`has_tokenless_keyword` (always-score). -/
def exScaffoldC1 : Scaffold :=
  ⟨"t1", "", "", ⟨[], ["!!!"], []⟩⟩

/-- Second scaffold for the C1 witness: keyword `hello` is indexed, so the
union of indexed ids is nonempty and the always-score scaffold survives
pruning. -/
def exScaffoldC1b : Scaffold :=
  ⟨"t2", "", "", ⟨[], ["hello"], []⟩⟩

/-- Example scaffold for the C5 counterexample: keyword `alph` shares a
token with the input (so it is a candidate) but the word-boundary pattern
misses `foo_alph`, leaving only the description-overlap layer, which is
rational-valued. -/
def exScaffoldC5 : Scaffold :=
  ⟨"s1", "", "foo alph", ⟨[], ["alph"], []⟩⟩

/-- Parameters for the C5 counterexample: a confidence floor of 0.5. -/
def paramsC5 : SelectionParams :=
  { defaultParams with min_confidence := some (1/2) }

/-! ## Helper lemmas -/

/-- On nonnegative input the saturation curve is `1 - e^(-k·raw)` (this also
covers `raw = 0`, where both branches give `0`). -/
theorem saturate_eq_of_nonneg (k raw : ℝ) (h : 0 ≤ raw) :
    _saturate raw k = 1 - Real.exp (-k * raw) := by
  unfold _saturate
  by_cases h0 : raw ≤ 0
  · have : raw = 0 := le_antisymm h0 h
    subst this
    simp
  · rw [if_neg h0]

/-- Round-half-to-even is within 1/2 of its argument. -/
theorem roundHalfEven_err (x : ℚ) : |(roundHalfEven x : ℚ) - x| ≤ 1/2 := by
  have hfl : (⌊x⌋ : ℚ) ≤ x := Int.floor_le x
  have hfu : x < (⌊x⌋ : ℚ) + 1 := Int.lt_floor_add_one x
  unfold roundHalfEven
  split_ifs with h1 h2 h3
  · rw [abs_le]; constructor <;> linarith
  · push_cast
    rw [abs_le]; constructor <;> linarith
  · rw [abs_le]; constructor <;> linarith
  · push_cast
    rw [abs_le]; constructor <;> linarith

/-- `round(q, 1)` is within 1/20 of its argument. -/
theorem roundTo_one_err (q : ℚ) : |roundTo 1 q - q| ≤ 1/20 := by
  have h := roundHalfEven_err (q * 10 ^ 1)
  have heq : roundTo 1 q - q = ((roundHalfEven (q * 10 ^ 1) : ℚ) - q * 10 ^ 1) / 10 ^ 1 := by
    unfold roundTo; field_simp; ring
  rw [heq, abs_div]
  rw [show |((10:ℚ) ^ 1)| = 10 by norm_num]
  linarith [h]

/-- Summed elementwise rounding error is at most `length / 20`. -/
theorem sum_map_roundTo_err (l : List ℚ) :
    |(l.map (fun c => roundTo 1 c)).sum - l.sum| ≤ (l.length : ℚ) / 20 := by
  induction l with
  | nil => simp
  | cons a t ih =>
    simp only [List.map_cons, List.sum_cons, List.length_cons]
    have h1 := roundTo_one_err a
    have tri : |(roundTo 1 a + ((t.map (fun c => roundTo 1 c)).sum)) - (a + t.sum)|
        ≤ |roundTo 1 a - a| + |((t.map (fun c => roundTo 1 c)).sum) - t.sum| := by
      have : (roundTo 1 a + ((t.map (fun c => roundTo 1 c)).sum)) - (a + t.sum)
          = (roundTo 1 a - a) + (((t.map (fun c => roundTo 1 c)).sum) - t.sum) := by ring
      rw [this]
      exact abs_add _ _
    have : ((t.length : ℚ) + 1) / 20 = (t.length : ℚ) / 20 + 1/20 := by ring
    push_cast
    push_cast at tri ih
    linarith

/-- All elements of a nonnegative list summing to zero are zero. -/
theorem all_zero_of_sum_zero (l : List ℚ) (hpos : ∀ c ∈ l, 0 ≤ c) (hsum : l.sum = 0) :
    ∀ c ∈ l, c = 0 := by
  induction l with
  | nil => simp
  | cons a t ih =>
    simp only [List.sum_cons] at hsum
    have ha : 0 ≤ a := hpos a (List.mem_cons_self a t)
    have ht : 0 ≤ t.sum := List.sum_nonneg (fun x hx => hpos x (List.mem_cons_of_mem a hx))
    have ha0 : a = 0 := by linarith
    intro c hc
    rcases List.mem_cons.mp hc with h | h
    · rw [h, ha0]
    · exact ih (fun x hx => hpos x (List.mem_cons_of_mem a hx)) (by linarith) c h

/-- Under valid inputs `NativeBackend.detect` succeeds with the assembled
result. -/
theorem detect_eq_ok (names : List String) (values : List ℚ) (weights : Option (List ℚ))
    (mode : String) (f_time dThr tThr cDiv : ℚ)
    (hlen : names.length = values.length) (h2 : 2 ≤ names.length)
    (hmode : mode = "friction" ∨ mode = "emergence")
    (hw : ∀ w ∈ weights, names.length ≤ w.length) (hcd : cDiv ≠ 0) :
    NativeBackend.detect names values weights mode f_time dThr tThr cDiv =
      .ok (mkDetection names values
        (weights.getD (List.replicate names.length (1 / (names.length : ℚ))))
        mode f_time dThr tThr cDiv) := by
  have hwlen : ¬((weights.getD (List.replicate names.length (1 / (names.length : ℚ)))).length
      < names.length) := by
    cases weights with
    | none => simp
    | some w => simpa using not_lt_of_ge (hw w rfl)
  unfold NativeBackend.detect
  rw [if_neg (by omega), if_neg (by omega), if_neg (not_not_intro hmode),
    if_neg hwlen, if_neg hcd]

/-! ## Claim C9 — the saturation transform is strictly diminishing -/

/-- Claim C9: for every rate `k > 0` and every integer `n ≥ 1`,
`saturate(n+1) - saturate(n) < saturate(n) - saturate(n-1)`: successive
gains of `_saturate` strictly shrink. -/
theorem claim_C9 (k : ℝ) (n : ℕ) (hk : 0 < k) (hn : 1 ≤ n) :
    _saturate ((n : ℝ) + 1) k - _saturate (n : ℝ) k <
      _saturate (n : ℝ) k - _saturate ((n : ℝ) - 1) k := by
  have hn1 : (1 : ℝ) ≤ (n : ℝ) := by exact_mod_cast hn
  rw [saturate_eq_of_nonneg k ((n : ℝ) + 1) (by linarith),
    saturate_eq_of_nonneg k (n : ℝ) (by linarith),
    saturate_eq_of_nonneg k ((n : ℝ) - 1) (by linarith)]
  have e1 : Real.exp (-k * ((n : ℝ) + 1)) = Real.exp (-k * (n : ℝ)) * Real.exp (-k) := by
    rw [← Real.exp_add]; ring_nf
  have e2 : Real.exp (-k * ((n : ℝ) - 1)) = Real.exp (-k * (n : ℝ)) * Real.exp k := by
    rw [← Real.exp_add]; ring_nf
  have hA : 0 < Real.exp (-k * (n : ℝ)) := Real.exp_pos _
  have hx : 1 < Real.exp k := by
    rw [← Real.exp_zero]
    exact Real.exp_lt_exp.mpr hk
  have hx0 : 0 < Real.exp k := Real.exp_pos k
  have hinv : Real.exp (-k) = (Real.exp k)⁻¹ := Real.exp_neg k
  have hxinv : Real.exp k * (Real.exp k)⁻¹ = 1 := mul_inv_cancel₀ (ne_of_gt hx0)
  have hgap : 2 < Real.exp k + Real.exp (-k) := by
    rw [hinv]
    have hsq : 0 < (Real.exp k - 1) ^ 2 :=
      sq_pos_of_ne_zero (ne_of_gt (by linarith : (0:ℝ) < Real.exp k - 1))
    have hinvpos : 0 < (Real.exp k)⁻¹ := inv_pos.mpr hx0
    nlinarith
  rw [e1, e2]
  nlinarith

/-- Witness for C9 at `k = 1`, `n = 1`. -/
theorem claim_C9_witness :
    _saturate (((1 : ℕ) : ℝ) + 1) 1 - _saturate ((1 : ℕ) : ℝ) 1 <
      _saturate ((1 : ℕ) : ℝ) 1 - _saturate (((1 : ℕ) : ℝ) - 1) 1 :=
  claim_C9 1 1 one_pos (le_refl 1)

/-! ## Claim C2 — fallacy classification -/

/-- Claim C2: `classify_fallacy` returns `valid_argument` with the validity
flag set whenever the signal is not `friction_detected`; on friction it
returns the first matching rule of the ordered signature table, and when no
rule predicate holds it returns exactly `unclassified_friction` with the
validity flag cleared — never a nearest-rule guess. -/
theorem claim_C2 (r : DetectionResult) (v : ArgLayerValues) :
    (r.signal ≠ "friction_detected" →
      (classify_fallacy r v).name = "valid_argument" ∧
        (classify_fallacy r v).is_valid = true) ∧
    (r.signal = "friction_detected" →
      (classify_fallacy r v).is_valid = false ∧
      ((∀ sig ∈ fallacySignatures, sig.predicate v = false) →
        (classify_fallacy r v).name = "unclassified_friction") ∧
      (∀ sig, fallacySignatures.find? (fun s => s.predicate v) = some sig →
        (classify_fallacy r v).name = sig.name ∧
          (classify_fallacy r v).display_name = sig.display_name)) := by
  constructor
  · intro h
    unfold classify_fallacy
    rw [if_pos h]
    exact ⟨rfl, rfl⟩
  · intro h
    have hcond : ¬(r.signal ≠ "friction_detected") := by simp [h]
    unfold classify_fallacy
    rw [if_neg hcond]
    cases hfind : fallacySignatures.find? (fun s => s.predicate v) with
    | none =>
      refine ⟨rfl, fun _ => rfl, fun sig hsig => ?_⟩
      simp at hsig
    | some sig =>
      refine ⟨rfl, fun hall => ?_, fun sig' hsig' => ?_⟩
      · have hmem := List.mem_of_find?_eq_some hfind
        have hpred := List.find?_some hfind
        have := hall sig hmem
        simp [this] at hpred
      · injection hsig' with he
        subst he
        exact ⟨rfl, rfl⟩

/-- Witness for C2: a baseline result classifies as a valid argument. -/
theorem claim_C2_witness :
    (classify_fallacy ⟨0, 0, [], "baseline", "", 0, [], "cip_native"⟩ ⟨0, 0, 0, 0⟩).name
        = "valid_argument" :=
  ((claim_C2 ⟨0, 0, [], "baseline", "", 0, [], "cip_native"⟩ ⟨0, 0, 0, 0⟩).1 (by decide)).1

/-! ## Claim C3 — kernel validation (corrected) -/

/-- Counterexample to C3 as stated: a weights list shorter than the layer
count makes `NativeBackend.detect` fail (`IndexError` in the source) even
though the layer count, length agreement and mode are all valid. -/
theorem claim_C3_counterexample :
    (NativeBackend.detect ["a", "b"] [0, 0] (some []) "friction" 1 (4/10) (1/2) (1/2)).isOk
        = false ∧
    (["a", "b"] : List String).length = ([0, 0] : List ℚ).length ∧
    2 ≤ (["a", "b"] : List String).length ∧
    ("friction" = "friction" ∨ "friction" = "emergence") := by
  refine ⟨rfl, rfl, by norm_num, Or.inl rfl⟩

/-- Claim C3 (amended): `NativeBackend.detect` fails exactly when the layer
count is below 2, the name/value lengths differ, the mode is unknown, a
supplied weights list is shorter than the layer count, or the coherence
divisor is zero; otherwise it returns a `DetectionResult`. -/
theorem claim_C3 (layer_names : List String) (layer_values : List ℚ)
    (weights : Option (List ℚ)) (mode : String) (f_time dThr tThr cDiv : ℚ) :
    (NativeBackend.detect layer_names layer_values weights mode f_time dThr tThr cDiv).isOk
        = true ↔
      (layer_names.length = layer_values.length ∧ 2 ≤ layer_names.length ∧
        (mode = "friction" ∨ mode = "emergence") ∧
        (∀ w ∈ weights, layer_names.length ≤ w.length) ∧ cDiv ≠ 0) := by
  constructor
  · intro h
    unfold NativeBackend.detect at h
    by_cases hA : layer_names.length = layer_values.length
    · rw [if_neg (not_not_intro hA)] at h
      by_cases hB : layer_names.length < 2
      · rw [if_pos hB] at h
        exact Bool.noConfusion h
      · rw [if_neg hB] at h
        by_cases hC : mode = "friction" ∨ mode = "emergence"
        · rw [if_neg (not_not_intro hC)] at h
          by_cases hD : (weights.getD
              (List.replicate layer_names.length (1 / (layer_names.length : ℚ)))).length
              < layer_names.length
          · rw [if_pos hD] at h
            exact Bool.noConfusion h
          · rw [if_neg hD] at h
            by_cases hE : cDiv = 0
            · rw [if_pos hE] at h
              exact Bool.noConfusion h
            · refine ⟨hA, by omega, hC, ?_, hE⟩
              intro w hw
              cases weights with
              | none => cases hw
              | some w' =>
                have hww : w' = w := by cases hw; rfl
                subst hww
                simp only [Option.getD_some] at hD
                omega
        · rw [if_pos hC] at h
          exact Bool.noConfusion h
    · rw [if_pos hA] at h
      exact Bool.noConfusion h
  · rintro ⟨hlen, h2, hmode, hw, hcd⟩
    rw [detect_eq_ok layer_names layer_values weights mode f_time dThr tThr cDiv
      hlen h2 hmode hw hcd]
    rfl

/-! ## Claim C4 — signal classification -/

/-- Claim C4: for every valid kernel input, in friction mode the signal is
`friction_detected` iff the spread exceeds the threshold, else
`emergence_window` iff the minimum exceeds the threshold, else `baseline`;
in emergence mode only the minimum check applies. -/
theorem claim_C4 (names : List String) (values : List ℚ) (weights : Option (List ℚ))
    (mode : String) (f_time dThr tThr cDiv : ℚ)
    (hlen : names.length = values.length) (h2 : 2 ≤ names.length)
    (hmode : mode = "friction" ∨ mode = "emergence")
    (hw : ∀ w ∈ weights, names.length ≤ w.length) (hcd : cDiv ≠ 0) :
    (NativeBackend.detect names values weights mode f_time dThr tThr cDiv).toOption.map
        (fun r => r.signal) =
      some (if mode = "friction" then
              if dThr < maxQ values - minQ values then "friction_detected"
              else if dThr < minQ values then "emergence_window"
              else "baseline"
            else if dThr < minQ values then "emergence_window"
            else "baseline") := by
  rw [detect_eq_ok names values weights mode f_time dThr tThr cDiv hlen h2 hmode hw hcd]
  rfl

/-- Witness for C4 at the spec scenario `{0.9, 0.1, 0.8, 0.2}`, equal
weights, friction mode, threshold 0.4. -/
theorem claim_C4_witness :
    (NativeBackend.detect ["a", "b", "c", "d"] [9/10, 1/10, 8/10, 2/10] none "friction" 1
        (4/10) (1/2) (1/2)).toOption.map (fun r => r.signal) =
      some (if "friction" = "friction" then
              if (4/10 : ℚ) < maxQ [9/10, 1/10, 8/10, 2/10] - minQ [9/10, 1/10, 8/10, 2/10]
              then "friction_detected"
              else if (4/10 : ℚ) < minQ [9/10, 1/10, 8/10, 2/10] then "emergence_window"
              else "baseline"
            else if (4/10 : ℚ) < minQ [9/10, 1/10, 8/10, 2/10] then "emergence_window"
            else "baseline") :=
  claim_C4 ["a", "b", "c", "d"] [9/10, 1/10, 8/10, 2/10] none "friction" 1 (4/10) (1/2) (1/2)
    rfl (by norm_num) (Or.inl rfl) (fun w hw => by cases hw) (by norm_num)

/-! ## Claim C7 — attribution -/

/-- Stripping the names from the attribution pairs. -/
theorem map_snd_zipWith_pair (g : ℚ → ℚ) :
    ∀ (names : List String) (cs : List ℚ),
      ((List.zipWith (fun nm c => (nm, g c)) names cs).map Prod.snd) =
        List.zipWith (fun _ c => g c) names cs := by
  intro names
  induction names with
  | nil => intro cs; simp
  | cons a t ih =>
    intro cs
    cases cs with
    | nil => simp
    | cons c ct => simp [ih]

/-- A constant-in-first-argument `zipWith` with enough left elements is a map. -/
theorem zipWith_const_map (g : ℚ → ℚ) :
    ∀ (names : List String) (cs : List ℚ), cs.length ≤ names.length →
      List.zipWith (fun _ c => g c) names cs = cs.map g := by
  intro names
  induction names with
  | nil =>
    intro cs h
    cases cs with
    | nil => simp
    | cons c ct => simp at h
  | cons a t ih =>
    intro cs h
    cases cs with
    | nil => simp
    | cons c ct =>
      simp only [List.zipWith_cons_cons, List.map_cons]
      rw [ih ct (by simpa using h)]

/-- Membership in the attribution list determines the value field. -/
theorem mem_zipWith_pair (g : ℚ → ℚ) :
    ∀ (names : List String) (cs : List ℚ) (pr : String × ℚ),
      pr ∈ List.zipWith (fun nm c => (nm, g c)) names cs → ∃ c ∈ cs, pr.2 = g c := by
  intro names
  induction names with
  | nil => intro cs pr h; simp at h
  | cons a t ih =>
    intro cs pr h
    cases cs with
    | nil => simp at h
    | cons c ct =>
      simp only [List.zipWith_cons_cons, List.mem_cons] at h
      rcases h with h | h
      · exact ⟨c, List.mem_cons_self c ct, by rw [h]⟩
      · obtain ⟨c', hc', he⟩ := ih ct pr h
        exact ⟨c', List.mem_cons_of_mem c hc', he⟩

/-- Claim C7: under valid inputs with distinct layer names, the attribution
percentages sum to 100 within the one-decimal rounding error whenever the
spatial component is nonzero; and with nonnegative contributions summing to
zero the attribution is identically zero (denominator treated as 1). -/
theorem claim_C7 (names : List String) (values w : List ℚ) (mode : String)
    (f_time dThr tThr cDiv : ℚ)
    (hlen : names.length = values.length) (h2 : 2 ≤ names.length)
    (hmode : mode = "friction" ∨ mode = "emergence")
    (hw : names.length ≤ w.length) (hcd : cDiv ≠ 0) (hnd : names.Nodup) :
    ∃ r, NativeBackend.detect names values (some w) mode f_time dThr tThr cDiv = .ok r ∧
      (spatialRaw w values ≠ 0 →
        |((r.layer_attribution.map Prod.snd).sum) - 100| ≤ (names.length : ℚ) / 20) ∧
      ((∀ c ∈ contributionsOf w values, 0 ≤ c) → spatialRaw w values = 0 →
        ∀ pr ∈ r.layer_attribution, pr.2 = 0) := by
  refine ⟨_, detect_eq_ok names values (some w) mode f_time dThr tThr cDiv hlen h2 hmode
    (fun w' hw' => by cases hw'; exact hw) hcd, ?_, ?_⟩
  · -- attribution sums to 100 up to rounding when the spatial component is nonzero
    intro hT
    set T := spatialRaw w values with hTdef
    have hattr : (mkDetection names values ((some w).getD
        (List.replicate names.length (1 / (names.length : ℚ)))) mode f_time dThr tThr
        cDiv).layer_attribution =
        List.zipWith (fun nm c => (nm, roundTo 1 (c / T * 100))) names
          (contributionsOf w values) := by
      simp [mkDetection, if_neg hT]
    rw [hattr]
    have hclen : (contributionsOf w values).length = names.length := by
      simp only [contributionsOf, List.length_zipWith]
      omega
    rw [map_snd_zipWith_pair, zipWith_const_map _ _ _ (by omega)]
    have hmm : (contributionsOf w values).map (fun c => roundTo 1 (c / T * 100)) =
        ((contributionsOf w values).map (fun c => c / T * 100)).map (fun c => roundTo 1 c) := by
      rw [List.map_map]
      rfl
    have hsum : ((contributionsOf w values).map (fun c => c / T * 100)).sum = 100 := by
      have : (fun c : ℚ => c / T * 100) = (fun c : ℚ => c * (100 / T)) := by
        funext c; ring
      rw [this, List.sum_map_mul_right]
      have : ((contributionsOf w values).map (fun c : ℚ => c)).sum = T := by
        simp [hTdef, spatialRaw]
      rw [this]
      field_simp
    have herr := sum_map_roundTo_err ((contributionsOf w values).map (fun c => c / T * 100))
    rw [hsum, List.length_map, hclen] at herr
    rw [hmm]
    exact herr
  · -- degenerate all-zero attribution when the contribution sum is zero
    intro hpos hzero pr hpr
    have hattr : (mkDetection names values ((some w).getD
        (List.replicate names.length (1 / (names.length : ℚ)))) mode f_time dThr tThr
        cDiv).layer_attribution =
        List.zipWith (fun nm c => (nm, roundTo 1 (c / 1 * 100))) names
          (contributionsOf w values) := by
      simp [mkDetection, if_pos hzero]
    rw [hattr] at hpr
    obtain ⟨c, hc, he⟩ := mem_zipWith_pair _ names (contributionsOf w values) pr hpr
    have hc0 : c = 0 := all_zero_of_sum_zero (contributionsOf w values) hpos hzero c hc
    rw [he, hc0]
    norm_num [roundTo, roundHalfEven]

/-- Witness for C7 at two layers with weights `[1/2, 1/2]` and values
`[1/2, 1/2]`. -/
theorem claim_C7_witness :
    ∃ r, NativeBackend.detect ["a", "b"] [1/2, 1/2] (some [1/2, 1/2]) "friction" 1 (4/10)
        (1/2) (1/2) = .ok r ∧
      (spatialRaw [1/2, 1/2] [1/2, 1/2] ≠ 0 →
        |((r.layer_attribution.map Prod.snd).sum) - 100| ≤ ((["a", "b"] : List String).length : ℚ) / 20) ∧
      ((∀ c ∈ contributionsOf [1/2, 1/2] [1/2, 1/2], 0 ≤ c) →
        spatialRaw [1/2, 1/2] [1/2, 1/2] = 0 →
        ∀ pr ∈ r.layer_attribution, pr.2 = 0) :=
  claim_C7 ["a", "b"] [1/2, 1/2] [1/2, 1/2] "friction" 1 (4/10) (1/2) (1/2)
    rfl (by norm_num) (Or.inl rfl) (by norm_num) (by norm_num) (by decide)

/-! ## Claim C8 — linear time scaling (corrected) -/

/-- Casting commutes with rounding: half-to-even rounding of a rational real. -/
theorem roundHalfEvenR_ratCast (q : ℚ) : roundHalfEvenR ((q : ℝ)) = roundHalfEven q := by
  have hfl : ⌊(q : ℝ)⌋ = ⌊q⌋ := Rat.floor_cast q
  unfold roundHalfEvenR roundHalfEven
  rw [hfl]
  have hc : ((q : ℝ) - ((⌊q⌋ : ℤ) : ℝ)) = (((q - (⌊q⌋ : ℤ) : ℚ)) : ℝ) := by
    push_cast
    ring
  have hh : ((1 : ℝ)/2) = (((1 : ℚ)/2 : ℚ) : ℝ) := by norm_num
  have c1 : ((q : ℝ) - ((⌊q⌋ : ℤ) : ℝ) < 1/2) ↔ (q - ((⌊q⌋ : ℤ) : ℚ) < 1/2) := by
    rw [hc, hh]
    exact Rat.cast_lt
  have c2 : ((1 : ℝ)/2 < (q : ℝ) - ((⌊q⌋ : ℤ) : ℝ)) ↔ ((1 : ℚ)/2 < q - ((⌊q⌋ : ℤ) : ℚ)) := by
    rw [hc, hh]
    exact Rat.cast_lt
  simp only [c1, c2]

/-- `round(x, p)` of a rational real is the cast of the rational rounding. -/
theorem roundToR_ratCast (p : ℕ) (q : ℚ) : roundToR p ((q : ℝ)) = ((roundTo p q : ℚ) : ℝ) := by
  unfold roundToR roundTo
  rw [show ((q : ℝ) * 10 ^ p) = (((q * 10 ^ p : ℚ)) : ℝ) by push_cast; ring,
    roundHalfEvenR_ratCast]
  push_cast
  ring

/-- Claim C8 (amended): the composite `M = sum(W·L) · f_time / sqrt(N)` is
exactly linear in `f_time` before the 6-decimal rounding of the returned
`m_score`: doubling `f_time` doubles `mComposite`. -/
theorem claim_C8 (w values : List ℚ) : mComposite w values 2 = 2 * mComposite w values 1 := by
  unfold mComposite
  push_cast
  ring

/-- Counterexample to C8 as stated: with layers `7e-7` (four of them, equal
weights), the rounded `m_score` at `f_time = 2` is `1e-6` while at
`f_time = 1` it is `0`, so the returned scores do not double exactly. -/
theorem claim_C8_counterexample :
    (NativeBackend.detect ["a", "b", "c", "d"] (List.replicate 4 (7 / 10 ^ 7)) none "friction"
        2 (4/10) (1/2) (1/2)).toOption.map (fun r => r.m_score) = some (1 / 1000000) ∧
    (NativeBackend.detect ["a", "b", "c", "d"] (List.replicate 4 (7 / 10 ^ 7)) none "friction"
        1 (4/10) (1/2) (1/2)).toOption.map (fun r => r.m_score) = some 0 ∧
    (1 / 1000000 : ℝ) ≠ 2 * 0 := by
  have hsqrt : Real.sqrt (((List.replicate 4 ((7 : ℚ) / 10 ^ 7)).length : ℕ) : ℝ) = 2 := by
    rw [List.length_replicate]
    rw [show (((4 : ℕ) : ℝ)) = 2 ^ 2 by norm_num]
    exact Real.sqrt_sq (by norm_num)
  have hspat : spatialRaw (List.replicate (["a", "b", "c", "d"] : List String).length
      (1 / ((["a", "b", "c", "d"] : List String).length : ℚ)))
      (List.replicate 4 (7 / 10 ^ 7)) = 7 / 10 ^ 7 := by
    norm_num [spatialRaw, contributionsOf, List.replicate]
  refine ⟨?_, ?_, by norm_num⟩
  · rw [detect_eq_ok _ _ none "friction" 2 (4/10) (1/2) (1/2) rfl (by norm_num)
      (Or.inl rfl) (fun w hw => by cases hw) (by norm_num)]
    show some (mkDetection _ _ _ _ _ _ _ _).m_score = _
    congr 1
    simp only [mkDetection, mComposite, Option.getD_none]
    rw [hspat, hsqrt]
    rw [show (((7 : ℚ) / 10 ^ 7 * 2 : ℚ) : ℝ) / 2 = (((7 : ℚ) / 10 ^ 7 : ℚ) : ℝ) by
      push_cast; ring]
    rw [roundToR_ratCast]
    rw [show roundTo 6 (7 / 10 ^ 7) = 1 / 1000000 by norm_num [roundTo, roundHalfEven]]
    push_cast
    norm_num
  · rw [detect_eq_ok _ _ none "friction" 1 (4/10) (1/2) (1/2) rfl (by norm_num)
      (Or.inl rfl) (fun w hw => by cases hw) (by norm_num)]
    show some (mkDetection _ _ _ _ _ _ _ _).m_score = _
    congr 1
    simp only [mkDetection, mComposite, Option.getD_none]
    rw [hspat, hsqrt]
    rw [show (((7 : ℚ) / 10 ^ 7 * 1 : ℚ) : ℝ) / 2 = (((35 : ℚ) / 10 ^ 8 : ℚ) : ℝ) by
      push_cast; ring]
    rw [roundToR_ratCast]
    rw [show roundTo 6 (35 / 10 ^ 8) = 0 by norm_num [roundTo, roundHalfEven]]
    norm_num

/-! ## Claim C10 — wrappers clamp layer values -/

/-- Claim C10: every domain wrapper clamps each supplied layer value into
`[0, 1]` (values below 0 become 0, above 1 become 1) before invoking the
kernel, so out-of-range values are normalised rather than rejected: with
four values each wrapper succeeds regardless of range. -/
theorem claim_C10 :
    (∀ v : ℚ, (v < 0 → _clamp v = 0) ∧ (1 < v → _clamp v = 1) ∧
      0 ≤ _clamp v ∧ _clamp v ≤ 1) ∧
    (∀ (values : List ℚ) (dThr : ℚ),
      detect_safety_friction values dThr =
        NativeBackend.detect safetyLayers (values.map _clamp)
          (some [3/10, 35/100, 2/10, 15/100]) "friction" 1 dThr (1/2) (1/2) ∧
      (values.length = 4 → (detect_safety_friction values dThr).isOk = true)) ∧
    (∀ (values : List ℚ) (dThr : ℚ),
      detect_policy_conflict values dThr =
        NativeBackend.detect policyLayers (values.map _clamp)
          (some [3/10, 25/100, 25/100, 2/10]) "friction" 1 dThr (1/2) (1/2) ∧
      (values.length = 4 → (detect_policy_conflict values dThr).isOk = true)) ∧
    (∀ (values : List ℚ) (dThr : ℚ), values.length = 4 →
      detect_argument_friction values dThr =
        NativeBackend.detect argumentLayers (values.map _clamp)
          (some argumentWeights) "friction" 1 dThr (1/2) (1/2) ∧
      (detect_argument_friction values dThr).isOk = true) := by
  have hclamp : ∀ v : ℚ, (v < 0 → _clamp v = 0) ∧ (1 < v → _clamp v = 1) ∧
      0 ≤ _clamp v ∧ _clamp v ≤ 1 := by
    intro v
    unfold _clamp
    refine ⟨fun h => ?_, fun h => ?_, le_max_left 0 _, max_le (by norm_num) (min_le_left 1 v)⟩
    · rw [min_eq_right (by linarith : v ≤ 1)]
      exact max_eq_left (le_of_lt h)
    · rw [min_eq_left (le_of_lt h)]
      exact max_eq_right (by norm_num)
  refine ⟨hclamp, fun values dThr => ⟨rfl, fun h4 => ?_⟩,
    fun values dThr => ⟨rfl, fun h4 => ?_⟩, fun values dThr h4 => ⟨?_, ?_⟩⟩
  · unfold detect_safety_friction
    rw [detect_eq_ok _ _ _ _ _ _ _ _ (by simp [safetyLayers, h4]) (by norm_num [safetyLayers])
      (Or.inl rfl) (fun w hw => by cases hw; norm_num [safetyLayers]) (by norm_num)]
    rfl
  · unfold detect_policy_conflict
    rw [detect_eq_ok _ _ _ _ _ _ _ _ (by simp [policyLayers, h4]) (by norm_num [policyLayers])
      (Or.inl rfl) (fun w hw => by cases hw; norm_num [policyLayers]) (by norm_num)]
    rfl
  · unfold detect_argument_friction
    rw [if_neg (not_not_intro h4)]
  · unfold detect_argument_friction
    rw [if_neg (not_not_intro h4)]
    rw [detect_eq_ok _ _ _ _ _ _ _ _ (by simp [argumentLayers, h4])
      (by norm_num [argumentLayers]) (Or.inl rfl)
      (fun w hw => by cases hw; norm_num [argumentLayers, argumentWeights]) (by norm_num)]
    rfl

/-- Witness for C10: clamping at both ends and a successful wrapper call on
out-of-range values. -/
theorem claim_C10_witness :
    _clamp (-1) = 0 ∧ _clamp 2 = 1 ∧
    (detect_safety_friction [2, -1, 1/2, 3] (4/10)).isOk = true :=
  ⟨(claim_C10.1 (-1)).1 (by norm_num), (claim_C10.1 2).2.1 (by norm_num),
    (claim_C10.2.1 [2, -1, 1/2, 3] (4/10)).2 rfl⟩

/-! ## Claim C6 — inverted-index exactness -/

/-- Record updates in the entry-building folds never touch the signature. -/
theorem buildEntry_signature (s : Scaffold) :
    (buildEntry s).signature = _scaffold_signature s := by
  unfold buildEntry
  have hfold : ∀ (f : ScaffoldCache → String → ScaffoldCache),
      (∀ e a, (f e a).signature = e.signature) →
      ∀ (l : List String) (e : ScaffoldCache), (l.foldl f e).signature = e.signature := by
    intro f hf l
    induction l with
    | nil => intro e; rfl
    | cons a t ih =>
      intro e
      rw [List.foldl_cons, ih, hf]
  rw [hfold _ ?hkw _ _, hfold _ ?hsig _ _]
  case hsig =>
    intro e a
    split_ifs <;> rfl
  case hkw =>
    intro e a
    dsimp only
    split_ifs <;> rfl

/-- Inserting a rebuilt entry restores index exactness, provided the index
holds no stale memberships of the inserted id. -/
theorem indexExact_insertEntry (s : Scaffold) (st : MatcherState)
    (hother : ∀ token id, id ≠ s.id →
      (id ∈ st.token_to_scaffold_ids token ↔
        ∃ e, st.cache id = some e ∧ token ∈ e.match_tokens))
    (hself : ∀ token, s.id ∉ st.token_to_scaffold_ids token) :
    IndexExact (insertEntry s st).2 := by
  intro token id
  unfold insertEntry
  dsimp only
  by_cases hid : id = s.id
  · subst hid
    constructor
    · intro hmem
      by_cases ht : token ∈ (buildEntry s).match_tokens
      · exact ⟨buildEntry s, by rw [Function.update_same], ht⟩
      · rw [if_neg ht] at hmem
        exact absurd hmem (hself token)
    · rintro ⟨e, he, hte⟩
      rw [Function.update_same] at he
      injection he with he
      subst he
      rw [if_pos hte]
      exact Finset.mem_insert_self _ _
  · have hcache : Function.update st.cache s.id (some (buildEntry s)) id = st.cache id :=
      Function.update_noteq hid _ _
    rw [hcache]
    by_cases ht : token ∈ (buildEntry s).match_tokens
    · rw [if_pos ht, Finset.mem_insert]
      constructor
      · rintro (h | h)
        · exact absurd h hid
        · exact (hother token id hid).mp h
      · intro h
        exact Or.inr ((hother token id hid).mpr h)
    · rw [if_neg ht]
      exact hother token id hid

/-- `_ensure_cached` preserves index exactness. -/
theorem indexExact_ensure (s : Scaffold) (st : MatcherState) (h : IndexExact st) :
    IndexExact (_ensure_cached s st).2 := by
  unfold _ensure_cached
  cases hc : st.cache s.id with
  | none =>
    apply indexExact_insertEntry
    · intro token id _
      exact h token id
    · intro token hmem
      obtain ⟨e, he, -⟩ := (h token s.id).mp hmem
      rw [hc] at he
      cases he
  | some c =>
    dsimp only
    by_cases hsig : c.signature = _scaffold_signature s
    · rw [if_pos hsig]
      exact h
    · rw [if_neg hsig]
      apply indexExact_insertEntry
      · intro token id hid
        unfold _evict_scaffold_tokens
        dsimp only
        by_cases ht : token ∈ c.match_tokens
        · rw [if_pos ht, Finset.mem_erase]
          constructor
          · rintro ⟨-, hmem⟩
            exact (h token id).mp hmem
          · intro hmem
            exact ⟨hid, (h token id).mpr hmem⟩
        · rw [if_neg ht]
          exact h token id
      · intro token
        unfold _evict_scaffold_tokens
        dsimp only
        by_cases ht : token ∈ c.match_tokens
        · rw [if_pos ht]
          intro hmem
          exact absurd (Finset.mem_erase.mp hmem).1 (not_not_intro rfl)
        · rw [if_neg ht]
          intro hmem
          obtain ⟨e, he, hte⟩ := (h token s.id).mp hmem
          rw [hc] at he
          injection he with he
          subst he
          exact ht hte

/-- A fold of `_ensure_cached` preserves index exactness. -/
theorem indexExact_prepare (ss : List Scaffold) :
    ∀ st : MatcherState, IndexExact st → IndexExact (prepare_matcher_cache ss st) := by
  induction ss with
  | nil => intro st h; exact h
  | cons s t ih =>
    intro st h
    exact ih _ (indexExact_ensure s st h)

/-- Claim C6: after any sequence of cache operations from the empty state the
inverted index maps each token to exactly the ids whose current cache entry
contains it; and `_ensure_cached` always leaves an entry carrying the
scaffold's live signature, rebuilding (after purging stale index rows)
whenever the stored signature disagrees — so re-scoring after a
content-signature change never sees the stale entry. -/
theorem claim_C6 :
    (∀ ops : List CacheOp, IndexExact (runOps ops)) ∧
    (∀ (st : MatcherState) (s : Scaffold),
      ∃ e, ((_ensure_cached s st).2).cache s.id = some e ∧
        e.signature = _scaffold_signature s ∧
        (∀ c, st.cache s.id = some c → c.signature ≠ _scaffold_signature s →
          e = buildEntry s)) := by
  have init : IndexExact initState := by
    intro token id
    constructor
    · intro h
      simp [initState] at h
    · rintro ⟨e, he, -⟩
      simp [initState] at he
  have hstep : ∀ (op : CacheOp) (st : MatcherState), IndexExact st →
      IndexExact (applyOp st op) := by
    intro op st h
    cases op with
    | ensure s => exact indexExact_ensure s st h
    | prepareAll ss => exact indexExact_prepare ss st h
    | clear => exact init
  have hfold : ∀ (ops : List CacheOp) (st : MatcherState), IndexExact st →
      IndexExact (ops.foldl applyOp st) := by
    intro ops
    induction ops with
    | nil => intro st h; exact h
    | cons op t ih =>
      intro st h
      exact ih _ (hstep op st h)
  constructor
  · intro ops
    exact hfold ops initState init
  · intro st s
    unfold _ensure_cached
    cases hc : st.cache s.id with
    | none =>
      refine ⟨buildEntry s, ?_, buildEntry_signature s, fun c hcc _ => rfl⟩
      unfold insertEntry
      dsimp only
      rw [Function.update_same]
    | some c =>
      dsimp only
      by_cases hsig : c.signature = _scaffold_signature s
      · rw [if_pos hsig]
        exact ⟨c, hc, hsig, fun c' hcc hne => by
          injection hcc with hcc
          subst hcc
          exact absurd hsig hne⟩
      · rw [if_neg hsig]
        refine ⟨buildEntry s, ?_, buildEntry_signature s, fun c' hcc hne => rfl⟩
        unfold insertEntry
        dsimp only
        rw [Function.update_same]

/-- Witness for C6: the invariant instantiated after a concrete `ensure`
run, at the indexed token. -/
theorem claim_C6_witness :
    "s1" ∈ (runOps [CacheOp.ensure exScaffoldC6]).token_to_scaffold_ids "alpha" ↔
      ∃ e, (runOps [CacheOp.ensure exScaffoldC6]).cache "s1" = some e ∧
        "alpha" ∈ e.match_tokens :=
  claim_C6.1 [CacheOp.ensure exScaffoldC6] "alpha" "s1"

/-! ## Claim C1 — always-score templates and pruning (corrected) -/

/-- Counterexample to C1 as stated: with input token `hello` hitting nothing
in the inverted index, `_candidate_scaffolds` returns the empty candidate
list even though the (cached) scaffold is flagged always-score — the early
`return []` on an empty indexed union skips the always-score check. -/
theorem claim_C1_counterexample :
    (_candidate_scaffolds [exScaffoldC1] (_tokenize "hello") initState).1 = [] ∧
    ((((_candidate_scaffolds [exScaffoldC1] (_tokenize "hello") initState).2).cache
        "t1").elim false (fun c => c.has_tokenless_keyword)) = true := by
  decide

/-- Claim C1 (amended): a template flagged always-score is exempt from token
pruning whenever pruning actually filters — with no input tokens everything
is returned, and with a nonempty indexed union the flagged template is in
the candidate list even if it shares no token; but when no input token
occurs in the inverted index, pruning returns the empty list, dropping even
always-score templates. -/
theorem claim_C1 (scaffolds : List Scaffold) (user_tokens : Finset String)
    (st : MatcherState) (s : Scaffold) (hs : s ∈ scaffolds)
    (hflag : (((prepare_matcher_cache scaffolds st).cache s.id).elim false
      (fun c => c.has_tokenless_keyword)) = true) :
    (user_tokens = ∅ → (_candidate_scaffolds scaffolds user_tokens st).1 = scaffolds) ∧
    (user_tokens ≠ ∅ →
      (user_tokens.biUnion (prepare_matcher_cache scaffolds st).token_to_scaffold_ids ≠ ∅ →
        s ∈ (_candidate_scaffolds scaffolds user_tokens st).1) ∧
      (user_tokens.biUnion (prepare_matcher_cache scaffolds st).token_to_scaffold_ids = ∅ →
        (_candidate_scaffolds scaffolds user_tokens st).1 = [])) := by
  have hne : scaffolds.isEmpty = false := by
    cases scaffolds with
    | nil => cases hs
    | cons a t => rfl
  constructor
  · intro h0
    unfold _candidate_scaffolds
    rw [if_pos (by simp [hne, h0])]
  · intro h0
    unfold _candidate_scaffolds
    rw [if_neg (by simp [hne, h0])]
    constructor
    · intro hids
      rw [if_neg hids]
      dsimp only
      rw [List.mem_filter]
      refine ⟨hs, ?_⟩
      rw [hflag]
      simp
    · intro hids
      rw [if_pos hids]

/-- Witness for C1 (amended): with a nonempty indexed union the always-score
scaffold is a candidate. -/
theorem claim_C1_witness :
    exScaffoldC1 ∈
      (_candidate_scaffolds [exScaffoldC1, exScaffoldC1b] (_tokenize "hello") initState).1 :=
  ((claim_C1 [exScaffoldC1, exScaffoldC1b] (_tokenize "hello") initState exScaffoldC1
    (by decide) (by decide)).2 (by decide)).1 (by decide)

/-! ## Claim C5 — no-match gating (corrected) -/

/-- The head of the descending sort dominates every element. -/
theorem insertionSort_head_max (l : List ScaffoldScore) :
    ∀ sc ∈ List.insertionSort scoreDesc l,
      sc.total_score ≤ topTotal (List.insertionSort scoreDesc l) := by
  have hsort := List.sorted_insertionSort scoreDesc l
  intro sc hsc
  cases hs : List.insertionSort scoreDesc l with
  | nil => rw [hs] at hsc; cases hsc
  | cons b rest =>
    rw [hs] at hsc hsort
    show sc.total_score ≤ b.total_score
    rcases List.mem_cons.mp hsc with h | h
    · rw [h]
    · exact (List.sorted_cons.mp hsort).1 sc h

/-- Generic origin lemma for the pass-1 fold: every produced score carries
the id of some scaffold of the base list, and every deferred non-candidate
is in the base list. -/
theorem foldl_scores_origin
    (f : (List ScaffoldScore × List Scaffold × MatcherState) → Scaffold →
      (List ScaffoldScore × List Scaffold × MatcherState))
    (hf1 : ∀ acc s, (f acc s).1 = acc.1 ∨
      ∃ sc, (f acc s).1 = acc.1 ++ [sc] ∧ sc.scaffold_id = s.id)
    (hf2 : ∀ acc s, (f acc s).2.1 = acc.2.1 ∨ (f acc s).2.1 = acc.2.1 ++ [s])
    (scaffolds : List Scaffold) :
    ∀ (l : List Scaffold) (acc : List ScaffoldScore × List Scaffold × MatcherState),
      (∀ x ∈ l, x ∈ scaffolds) →
      (∀ sc ∈ acc.1, ∃ s ∈ scaffolds, sc.scaffold_id = s.id) →
      (∀ x ∈ acc.2.1, x ∈ scaffolds) →
      (∀ sc ∈ (l.foldl f acc).1, ∃ s ∈ scaffolds, sc.scaffold_id = s.id) ∧
      (∀ x ∈ (l.foldl f acc).2.1, x ∈ scaffolds) := by
  intro l
  induction l with
  | nil => intro acc _ h1 h2; exact ⟨h1, h2⟩
  | cons a t ih =>
    intro acc hl h1 h2
    rw [List.foldl_cons]
    apply ih
    · intro x hx
      exact hl x (List.mem_cons_of_mem a hx)
    · intro sc hsc
      rcases hf1 acc a with h | ⟨sc', he, hid⟩
      · rw [h] at hsc
        exact h1 sc hsc
      · rw [he] at hsc
        rcases List.mem_append.mp hsc with h | h
        · exact h1 sc h
        · have hsc' : sc = sc' := by simpa using h
          subst hsc'
          exact ⟨a, hl a (List.mem_cons_self a t), hid⟩
    · intro x hx
      rcases hf2 acc a with h | h
      · rw [h] at hx
        exact h2 x hx
      · rw [h] at hx
        rcases List.mem_append.mp hx with h' | h'
        · exact h2 x h'
        · have hx' : x = a := by simpa using h'
          subst hx'
          exact hl x (List.mem_cons_self x t)

/-- Generic origin lemma for the pass-2 fold. -/
theorem foldl_scores_origin2
    (g : (List ScaffoldScore × MatcherState) → Scaffold → (List ScaffoldScore × MatcherState))
    (hg : ∀ acc s, ∃ sc, (g acc s).1 = acc.1 ++ [sc] ∧ sc.scaffold_id = s.id)
    (scaffolds : List Scaffold) :
    ∀ (l : List Scaffold) (acc : List ScaffoldScore × MatcherState),
      (∀ x ∈ l, x ∈ scaffolds) →
      (∀ sc ∈ acc.1, ∃ s ∈ scaffolds, sc.scaffold_id = s.id) →
      ∀ sc ∈ (l.foldl g acc).1, ∃ s ∈ scaffolds, sc.scaffold_id = s.id := by
  intro l
  induction l with
  | nil => intro acc _ h1; exact h1
  | cons a t ih =>
    intro acc hl h1
    rw [List.foldl_cons]
    apply ih
    · intro x hx
      exact hl x (List.mem_cons_of_mem a hx)
    · intro sc hsc
      obtain ⟨sc', he, hid⟩ := hg acc a
      rw [he] at hsc
      rcases List.mem_append.mp hsc with h | h
      · exact h1 sc h
      · have hsc' : sc = sc' := by simpa using h
        subst hsc'
        exact ⟨a, hl a (List.mem_cons_self a t), hid⟩

/-- Every score `_layered_scores` produces carries the id of one of the
scaffolds. -/
theorem layered_scores_origin (scaffolds : List Scaffold) (user_input : String)
    (params : SelectionParams) (st : MatcherState) :
    ∀ sc ∈ (_layered_scores scaffolds user_input params st).1,
      ∃ s ∈ scaffolds, sc.scaffold_id = s.id := by
  intro sc hsc
  unfold _layered_scores at hsc
  simp only [] at hsc
  have hpass1 := foldl_scores_origin
    (fun (acc : List ScaffoldScore × List Scaffold × MatcherState) s =>
      if s.id ∈ ((_candidate_scaffolds scaffolds (_tokenize user_input) st).1.map
          (fun s => s.id)).toFinset then
        (acc.1 ++ [_score_one s (_tokenize user_input) (lowerStr user_input)
            (_ensure_cached s acc.2.2).1 params], acc.2.1, (_ensure_cached s acc.2.2).2)
      else (acc.1, acc.2.1 ++ [s], acc.2.2))
    (by
      intro acc s
      dsimp only
      by_cases h : s.id ∈ ((_candidate_scaffolds scaffolds (_tokenize user_input) st).1.map
          (fun s => s.id)).toFinset
      · rw [if_pos h]
        exact Or.inr ⟨_, rfl, rfl⟩
      · rw [if_neg h]
        exact Or.inl rfl)
    (by
      intro acc s
      dsimp only
      by_cases h : s.id ∈ ((_candidate_scaffolds scaffolds (_tokenize user_input) st).1.map
          (fun s => s.id)).toFinset
      · rw [if_pos h]
        exact Or.inl rfl
      · rw [if_neg h]
        exact Or.inr rfl)
    scaffolds scaffolds ([], [], (_candidate_scaffolds scaffolds (_tokenize user_input) st).2)
    (fun x hx => hx) (by intro sc h; cases h) (by intro x h; cases h)
  split_ifs at hsc with hcond
  · refine foldl_scores_origin2
      (fun (acc : List ScaffoldScore × MatcherState) s =>
        if (params.activation : ℚ) < _score_descr s (_tokenize user_input) params then
          (acc.1 ++ [_score_one s (_tokenize user_input) (lowerStr user_input)
              (_ensure_cached s acc.2).1 params], (_ensure_cached s acc.2).2)
        else (acc.1 ++ [zeroScore s.id], acc.2))
      (by
        intro acc s
        dsimp only
        by_cases h : (params.activation : ℚ) < _score_descr s (_tokenize user_input) params
        · rw [if_pos h]
          exact ⟨_, rfl, rfl⟩
        · rw [if_neg h]
          exact ⟨_, rfl, rfl⟩)
      scaffolds _ _ hpass1.2 hpass1.1 sc hsc
  · rcases List.mem_append.mp hsc with h | h
    · exact hpass1.1 sc h
    · obtain ⟨x, hx, he⟩ := List.mem_map.mp h
      refine ⟨x, hpass1.2 x hx, ?_⟩
      rw [← he]
      rfl

/-- Behaviour of the gate stage on any computed score list. -/
theorem select_gates_spec (scaffolds : List Scaffold) (params : SelectionParams)
    (sl : List ScaffoldScore × MatcherState)
    (hids : ∀ sc ∈ sl.1, ∃ s ∈ scaffolds, sc.scaffold_id = s.id) :
    (∀ sc ∈ (_select_gates scaffolds params sl).scores,
      sc.total_score ≤ topTotal ((_select_gates scaffolds params sl).scores)) ∧
    (topTotal ((_select_gates scaffolds params sl).scores) ≤ 0 →
      (_select_gates scaffolds params sl).best = none ∧
      (_select_gates scaffolds params sl).confidence = 0) ∧
    (0 < topTotal ((_select_gates scaffolds params sl).scores) →
      0 < params.confidence →
      topTotal ((_select_gates scaffolds params sl).scores) < ((params.confidence : ℚ) : ℝ) →
      (_select_gates scaffolds params sl).best = none ∧
      (_select_gates scaffolds params sl).confidence =
        topTotal ((_select_gates scaffolds params sl).scores)) ∧
    (0 < topTotal ((_select_gates scaffolds params sl).scores) →
      (params.confidence ≤ 0 ∨
        ((params.confidence : ℚ) : ℝ) ≤ topTotal ((_select_gates scaffolds params sl).scores)) →
      ∃ s, (_select_gates scaffolds params sl).best = some s ∧ s ∈ scaffolds ∧
        s.id = topId ((_select_gates scaffolds params sl).scores)) := by
  have hmax := insertionSort_head_max sl.1
  have hperm := List.perm_insertionSort scoreDesc sl.1
  unfold _select_gates
  cases hs : List.insertionSort scoreDesc sl.1 with
  | nil =>
    dsimp only
    refine ⟨?_, ?_, ?_, ?_⟩
    · intro sc h
      cases h
    · intro h0
      exact ⟨rfl, rfl⟩
    · intro h0 _ _
      exact absurd h0 (lt_irrefl 0)
    · intro h0 _
      exact absurd h0 (lt_irrefl 0)
  | cons b rest =>
    rw [hs] at hmax hperm
    dsimp only
    by_cases hb : b.total_score ≤ 0
    · rw [if_pos hb]
      refine ⟨hmax, fun _ => ⟨rfl, rfl⟩, fun h0 _ _ => ?_, fun h0 _ => ?_⟩
      · exact absurd h0 (not_lt_of_ge hb)
      · exact absurd h0 (not_lt_of_ge hb)
    · rw [if_neg hb]
      by_cases hc : 0 < params.confidence ∧ b.total_score < ((params.confidence : ℚ) : ℝ)
      · rw [if_pos hc]
        refine ⟨hmax, fun h0 => absurd h0 (by simpa using hb), fun _ _ _ => ⟨rfl, rfl⟩,
          fun _ hor => ?_⟩
        rcases hor with h | h
        · exact absurd hc.1 (not_lt_of_ge h)
        · exact absurd hc.2 (not_lt_of_ge h)
      · rw [if_neg hc]
        refine ⟨hmax, fun h0 => absurd h0 (by simpa using hb), fun _ hct hlt => ?_, fun _ _ => ?_⟩
        · exact absurd ⟨hct, hlt⟩ hc
        · have hbmem : b ∈ sl.1 := hperm.subset (List.mem_cons_self b rest)
          obtain ⟨s, hsmem, hid⟩ := hids b hbmem
          cases hf : scaffolds.find? (fun sc => sc.id == b.scaffold_id) with
          | none =>
            exfalso
            have := List.find?_eq_none.mp hf s hsmem
            apply this
            rw [hid]
            exact beq_self_eq_true _
          | some s' =>
            refine ⟨s', rfl, List.mem_of_find?_eq_some hf, ?_⟩
            have hps := List.find?_some hf
            exact eq_of_beq hps

/-- Claim C5 (amended): selection never raises (the embedding is total); the
returned score list is topped by its maximum; a non-positive top score
yields no selected template with zero confidence; a positive top score
below a positive confidence floor yields no selected template but reports
the top score as the confidence (not an empty confidence); otherwise the
top-scoring template is selected. -/
theorem claim_C5 (scaffolds : List Scaffold) (user_input : String) (params : SelectionParams)
    (st : MatcherState) :
    (∀ sc ∈ (_score_scaffolds_layered scaffolds user_input params st).scores,
      sc.total_score ≤ topTotal ((_score_scaffolds_layered scaffolds user_input params st).scores)) ∧
    (topTotal ((_score_scaffolds_layered scaffolds user_input params st).scores) ≤ 0 →
      (_score_scaffolds_layered scaffolds user_input params st).best = none ∧
      (_score_scaffolds_layered scaffolds user_input params st).confidence = 0) ∧
    (0 < topTotal ((_score_scaffolds_layered scaffolds user_input params st).scores) →
      0 < params.confidence →
      topTotal ((_score_scaffolds_layered scaffolds user_input params st).scores) <
        ((params.confidence : ℚ) : ℝ) →
      (_score_scaffolds_layered scaffolds user_input params st).best = none ∧
      (_score_scaffolds_layered scaffolds user_input params st).confidence =
        topTotal ((_score_scaffolds_layered scaffolds user_input params st).scores)) ∧
    (0 < topTotal ((_score_scaffolds_layered scaffolds user_input params st).scores) →
      (params.confidence ≤ 0 ∨ ((params.confidence : ℚ) : ℝ) ≤
        topTotal ((_score_scaffolds_layered scaffolds user_input params st).scores)) →
      ∃ s, (_score_scaffolds_layered scaffolds user_input params st).best = some s ∧
        s ∈ scaffolds ∧
        s.id = topId ((_score_scaffolds_layered scaffolds user_input params st).scores)) := by
  unfold _score_scaffolds_layered
  split_ifs with h
  · refine ⟨?_, ?_, ?_, ?_⟩
    · intro sc hsc
      cases hsc
    · intro h0
      exact ⟨rfl, rfl⟩
    · intro h0 _ _
      exact absurd h0 (lt_irrefl 0)
    · intro h0 _
      exact absurd h0 (lt_irrefl 0)
  · exact select_gates_spec scaffolds params (_layered_scores scaffolds user_input params st)
      (layered_scores_origin scaffolds user_input params st)

/-- Witness for C5 on degenerate input (empty template list): the defined
no-match outcome with zero confidence. -/
theorem claim_C5_witness :
    (_score_scaffolds_layered [] "" defaultParams initState).best = none ∧
    (_score_scaffolds_layered [] "" defaultParams initState).confidence = 0 :=
  (claim_C5 [] "" defaultParams initState).2.1 (le_of_eq rfl)

/-- The saturation of a zero raw signal is zero. -/
theorem saturate_zero (k : ℝ) : _saturate 0 k = 0 := by
  simp [_saturate]

/-- The single candidate's total score in the C5 counterexample is exactly
3/10 (description-overlap layer only). -/
theorem c5_total :
    (_score_one exScaffoldC5 (_tokenize "foo_alph") (lowerStr "foo_alph")
      (_ensure_cached exScaffoldC5
        (_candidate_scaffolds [exScaffoldC5] (_tokenize "foo_alph") initState).2).1
      paramsC5).total_score = 3/10 := by
  have hm : microHits exScaffoldC5 (lowerStr "foo_alph")
      (_ensure_cached exScaffoldC5
        (_candidate_scaffolds [exScaffoldC5] (_tokenize "foo_alph") initState).2).1
      = (0, []) := by decide
  have hz : mesoRaw exScaffoldC5 (_tokenize "foo_alph") (lowerStr "foo_alph")
      (_ensure_cached exScaffoldC5
        (_candidate_scaffolds [exScaffoldC5] (_tokenize "foo_alph") initState).2).1
      paramsC5 = (0, []) := by decide
  have hd : _score_descr exScaffoldC5 (_tokenize "foo_alph") paramsC5 = 1 := by
    unfold _score_descr
    rw [show _tokenize exScaffoldC5.description = ({"foo", "alph"} : Finset String) from by decide]
    rw [show _tokenize "foo_alph" = ({"foo", "alph"} : Finset String) from by decide]
    rw [if_neg (by decide)]
    rw [show (({"foo", "alph"} ∩ {"foo", "alph"} : Finset String)).card = 2 from by decide]
    rw [if_neg (by decide)]
    rw [show (({"foo", "alph"} : Finset String)).card = 2 from by decide]
    norm_num
  have hmeta : _score_meta exScaffoldC5 paramsC5 = 0 := by
    simp [_score_meta, paramsC5, defaultParams]
  unfold _score_one _score_micro _score_meso
  rw [hm, hz, hd, hmeta]
  simp only [Nat.cast_zero, Rat.cast_zero, Rat.cast_one, saturate_zero]
  simp only [paramsC5, defaultParams, SelectionParams.weights,
    SelectionParams.activation, SelectionParams.reinforce, LayerBreakdown.active_count,
    Option.getD_none]
  rw [show ((_DEFAULT_WEIGHTS "micro").getD 0) = 2/10 from by simp [_DEFAULT_WEIGHTS],
    show ((_DEFAULT_WEIGHTS "meso").getD 0) = 4/10 from by simp [_DEFAULT_WEIGHTS],
    show ((_DEFAULT_WEIGHTS "macro").getD 0) = 3/10 from by simp [_DEFAULT_WEIGHTS],
    show ((_DEFAULT_WEIGHTS "meta").getD 0) = 1/10 from by simp [_DEFAULT_WEIGHTS]]
  norm_num [List.filter, decide_eq_true_eq]

/-- The C5 counterexample produces exactly one computed score. -/
theorem c5_scores :
    (_layered_scores [exScaffoldC5] "foo_alph" paramsC5 initState).1 =
      [_score_one exScaffoldC5 (_tokenize "foo_alph") (lowerStr "foo_alph")
        (_ensure_cached exScaffoldC5
          (_candidate_scaffolds [exScaffoldC5] (_tokenize "foo_alph") initState).2).1
        paramsC5] := by
  unfold _layered_scores
  simp only [List.foldl_cons, List.foldl_nil]
  rw [if_pos (show exScaffoldC5.id ∈ ((_candidate_scaffolds [exScaffoldC5]
    (_tokenize "foo_alph") initState).1.map (fun s => s.id)).toFinset from by decide)]
  rw [if_neg (fun h => h.2.2 rfl)]
  simp

/-- Counterexample to C5 as stated: with a confidence floor of 0.5 and a
single candidate scoring 3/10, selection returns no template but reports
confidence 3/10 — not the claimed empty confidence. -/
theorem claim_C5_counterexample :
    (_score_scaffolds_layered [exScaffoldC5] "foo_alph" paramsC5 initState).best = none ∧
    (_score_scaffolds_layered [exScaffoldC5] "foo_alph" paramsC5 initState).confidence
      = 3/10 ∧ ((3 : ℝ)/10 ≠ 0) := by
  unfold _score_scaffolds_layered
  rw [if_neg (by decide)]
  unfold _select_gates
  rw [c5_scores]
  rw [show List.insertionSort scoreDesc [_score_one exScaffoldC5 (_tokenize "foo_alph")
      (lowerStr "foo_alph") (_ensure_cached exScaffoldC5
        (_candidate_scaffolds [exScaffoldC5] (_tokenize "foo_alph") initState).2).1
      paramsC5] = [_score_one exScaffoldC5 (_tokenize "foo_alph") (lowerStr "foo_alph")
      (_ensure_cached exScaffoldC5
        (_candidate_scaffolds [exScaffoldC5] (_tokenize "foo_alph") initState).2).1
      paramsC5] from rfl]
  dsimp only
  rw [c5_total]
  rw [if_neg (by norm_num : ¬((3 : ℝ)/10 ≤ 0))]
  rw [if_pos (show 0 < paramsC5.confidence ∧ (3 : ℝ)/10 < ((paramsC5.confidence : ℚ) : ℝ) from
    ⟨by norm_num [paramsC5, defaultParams, SelectionParams.confidence],
     by norm_num [paramsC5, defaultParams, SelectionParams.confidence]⟩)]
  exact ⟨rfl, rfl, by norm_num⟩
